import Mathlib

/-!
Shallow embedding of the `noelchen90/sports` volleyball annotator.

Source files:
- `sports/configs/volleyball.py`: the dataclass `VolleyballCourtConfiguration`
  (dimension fields, the derived `vertices` property in physical centimetres,
  and the constant `edges`, `boundary_vertices_indices`, `labels`, `colors`
  lists).
- `sports/annotators/volleyball.py`: `draw_volleyball_court`, which builds a
  `(int(width*scale) + 2*padding, int(length*scale) + 2*padding, 3)` uint8
  buffer, paints it with the outside colour, fills the scaled boundary polygon
  with the inside colour via `cv2.fillPoly`, and then draws every edge of the
  configuration with `cv2.line`.

Modelling choices:
- `float` values (`scale`, the `length / 2` true division in `vertices`) are
  modelled as exact rationals; Python `int(...)` truncation toward zero is
  `pyInt`.
- A pixel is a BGR triple of integers (`Color` has exactly the three channels
  of the uint8 image buffer); an image is its two dimensions plus a total pixel
  function.  Rasterisation primitives only ever repaint pixels, so out-of-range
  coordinates of the total function are harmless: claims quantify over
  in-bounds pixels.
- `np.ones` raises on a negative dimension, hence the drawing function returns
  `Option Image`, `none` exactly when a computed image dimension is negative,
  or when a vertex lookup goes out of Python's (negative-index aware) range.
- `cv2.fillPoly` is modelled for the polygons this program actually passes:
  axis-aligned rectangles traced corner by corner, whose fill (boundary pixels
  included, as cv2 does) is the closed bounding box of the points.
- `cv2.line` is modelled at the function's default `line_thickness = 1` for the
  axis-aligned segments this program draws: the pixels of the segment itself.
  Thick-line rasterisation of cv2 is outside the model.
-/

section
attribute [local semireducible] Rat.mul Rat.add Rat.sub Rat.inv

/-- BGR colour triple, the value of `sv.Color.as_bgr()` and of one pixel of the
three-channel uint8 image buffer. -/
structure Color where
  b : ℤ
  g : ℤ
  r : ℤ
deriving DecidableEq

/-- Build the `as_bgr()` triple of an `sv.Color(r, g, b)` literal. -/
def svColor (r g b : ℤ) : Color :=
  { b := b, g := g, r := r }

/-- Default inside colour of the court, `sv.Color(245, 161, 66)` (orange). -/
def insideDefault : Color := svColor 245 161 66

/-- Default outside colour, `sv.Color(66, 161, 245)` (blue). -/
def outsideDefault : Color := svColor 66 161 245

/-- Default line colour, `sv.Color.WHITE`. -/
def lineWhite : Color := svColor 255 255 255

/-- Python `int(...)` on an exact rational: truncation toward zero. -/
def pyInt (q : ℚ) : ℤ :=
  if 0 ≤ q then ⌊q⌋ else -⌊-q⌋

/-- Python list indexing `xs[i]` with an integer index: non-negative indices
address from the front, negative indices count from the back, anything else is
an `IndexError`, modelled as `none`. -/
def pyGet? {α : Type} (xs : List α) (i : ℤ) : Option α :=
  if 0 ≤ i then xs.get? i.toNat
  else if 0 ≤ i + xs.length then xs.get? (i + xs.length).toNat
  else none

/-- Raster image: the two leading dimensions of the numpy buffer plus a total
pixel function (row, column ↦ BGR colour).  The third numpy dimension is the
three channels of `Color`. -/
structure Image where
  rows : ℤ
  cols : ℤ
  pix : ℤ → ℤ → Color

/-- Axis-aligned segment cover: the pixels painted by `cv2.line` at thickness 1
for the horizontal and vertical segments this program draws.  `sg` is the pair
of endpoints in cv2's (x, y) order; `y` the row and `x` the column of the
pixel. -/
abbrev segCovers (sg : (ℤ × ℤ) × (ℤ × ℤ)) (y x : ℤ) : Prop :=
  (sg.1.1 = sg.2.1 ∧ x = sg.1.1 ∧ min sg.1.2 sg.2.2 ≤ y ∧ y ≤ max sg.1.2 sg.2.2) ∨
  (sg.1.2 = sg.2.2 ∧ y = sg.1.2 ∧ min sg.1.1 sg.2.1 ≤ x ∧ x ≤ max sg.1.1 sg.2.1)

/-- Model of `cv2.line` for the axis-aligned, thickness-1 segments this program
draws: repaint exactly the pixels of the segment. -/
def Image.lineSeg (img : Image) (p1 p2 : ℤ × ℤ) (c : Color) : Image :=
  { img with pix := fun y x => if segCovers (p1, p2) y x then c else img.pix y x }

/-- Model of `cv2.fillPoly` for the polygons this program passes: an
axis-aligned rectangle traced corner by corner, filled (boundary included, as
cv2 does) as the closed bounding box of its points. -/
def Image.fillPoly (img : Image) (pts : List (ℤ × ℤ)) (c : Color) : Image :=
  match pts with
  | [] => img
  | q :: qs =>
      let xlo := qs.foldl (fun m pt => min m pt.1) q.1
      let xhi := qs.foldl (fun m pt => max m pt.1) q.1
      let ylo := qs.foldl (fun m pt => min m pt.2) q.2
      let yhi := qs.foldl (fun m pt => max m pt.2) q.2
      { img with pix := fun y x =>
          if xlo ≤ x ∧ x ≤ xhi ∧ ylo ≤ y ∧ y ≤ yhi then c else img.pix y x }

/-- Fresh buffer `np.ones((rows, cols, 3), uint8) * np.array(color, uint8)`:
every pixel equals the colour (1 * c = c on uint8 channel values). -/
def mkBase (rows cols : ℤ) (c : Color) : Image :=
  { rows := rows, cols := cols, pix := fun _ _ => c }

/-- The dataclass `VolleyballCourtConfiguration` of
`sports/configs/volleyball.py`, with its field defaults. -/
structure VolleyballCourtConfiguration where
  width : ℤ := 900
  length : ℤ := 1800
  attack_line_distance : ℤ := 300
  centre_line : ℤ := 0
  net_height : ℤ := 243
  edges : List (ℤ × ℤ) := [(1, 2), (2, 10), (10, 9), (9, 1), (5, 6), (3, 4), (7, 8)]
  boundary_vertices_indices : List ℤ := [1, 2, 10, 9]
  labels : List String :=
    ["new-point-0", "new-point-1", "new-point-2", "new-point-3", "new-point-4",
     "new-point-5", "new-point-6", "new-point-7", "new-point-8", "new-point-9"]
  colors : List String :=
    ["#FF1493", "#FF1493", "#FF1493", "#FF1493",
     "#00BFFF", "#00BFFF",
     "#FF6347", "#FF6347",
     "#FF6347", "#FF6347"]

/-- The `vertices` property: the ten (x, y) points in physical units, in source
order.  `self.length / 2` is Python true division, hence rational
coordinates. -/
def VolleyballCourtConfiguration.vertices (c : VolleyballCourtConfiguration) :
    List (ℚ × ℚ) :=
  [ ((0 : ℚ), (c.width : ℚ)),
    ((0 : ℚ), (0 : ℚ)),
    ((c.length : ℚ) / 2 - (c.attack_line_distance : ℚ), (0 : ℚ)),
    ((c.length : ℚ) / 2 - (c.attack_line_distance : ℚ), (c.width : ℚ)),
    ((c.length : ℚ) / 2, (c.width : ℚ)),
    ((c.length : ℚ) / 2, (0 : ℚ)),
    ((c.length : ℚ) / 2 + (c.attack_line_distance : ℚ), (0 : ℚ)),
    ((c.length : ℚ) / 2 + (c.attack_line_distance : ℚ), (c.width : ℚ)),
    ((c.length : ℚ), (c.width : ℚ)),
    ((c.length : ℚ), (0 : ℚ)) ]

/-- A configuration built entirely from the dataclass field defaults. -/
def defaultConfig : VolleyballCourtConfiguration := {}

/-- Lookup `config.vertices[i - 1]` for a 1-based index, with Python's indexing
semantics. -/
def vertexAt (V : List (ℚ × ℚ)) (i : ℤ) : Option (ℚ × ℚ) :=
  pyGet? V (i - 1)

/-- Scaled, padded pixel coordinate of a physical point:
`(int(x * scale) + padding, int(y * scale) + padding)`. -/
def scaledPoint (scale : ℚ) (padding : ℤ) (v : ℚ × ℚ) : ℤ × ℤ :=
  (pyInt (v.1 * scale) + padding, pyInt (v.2 * scale) + padding)

/-- The loop body drawing one edge: look both endpoints up in the vertex list
(1-based) and draw the scaled, padded segment in the line colour. -/
def edgeStep (V : List (ℚ × ℚ)) (lc : Color) (padding : ℤ) (scale : ℚ)
    (img : Image) (e : ℤ × ℤ) : Option Image :=
  (vertexAt V e.1).bind fun v1 =>
    (vertexAt V e.2).bind fun v2 =>
      some (img.lineSeg (scaledPoint scale padding v1) (scaledPoint scale padding v2) lc)

/-- Translation of `draw_volleyball_court`.  The image dimensions are
`int(width*scale) + 2*padding` rows and `int(length*scale) + 2*padding`
columns; a negative dimension makes `np.ones` raise (`none`); the boundary
polygon is filled with the inside colour over the outside-coloured base, and
every configured edge is then drawn on top.  The cv2 line thickness is fixed at
the function's default `line_thickness = 1`. -/
def draw_volleyball_court (config : VolleyballCourtConfiguration)
    (inside_color outside_color line_color : Color)
    (padding : ℤ) (scale : ℚ) : Option Image :=
  let scaled_width := pyInt ((config.width : ℚ) * scale)
  let scaled_length := pyInt ((config.length : ℚ) * scale)
  if 0 ≤ scaled_width + 2 * padding ∧ 0 ≤ scaled_length + 2 * padding then
    (config.boundary_vertices_indices.mapM (vertexAt config.vertices)).bind fun verts =>
      let court_boundaries := verts.map (scaledPoint scale padding)
      let court_image := mkBase (scaled_width + 2 * padding) (scaled_length + 2 * padding)
        outside_color
      let filled := court_image.fillPoly court_boundaries inside_color
      config.edges.foldlM (edgeStep config.vertices line_color padding scale) filled
  else none

/-- The scaled, padded boundary polygon handed to the fill primitive. -/
def boundaryPoints (config : VolleyballCourtConfiguration)
    (padding : ℤ) (scale : ℚ) : List (ℤ × ℤ) :=
  (config.boundary_vertices_indices.filterMap (vertexAt config.vertices)).map
    (scaledPoint scale padding)

/-- The scaled, padded endpoint pairs of the configured edges (those whose
vertex lookups succeed). -/
def edgeSegments (config : VolleyballCourtConfiguration)
    (padding : ℤ) (scale : ℚ) : List ((ℤ × ℤ) × (ℤ × ℤ)) :=
  config.edges.filterMap fun e =>
    match vertexAt config.vertices e.1, vertexAt config.vertices e.2 with
    | some v1, some v2 =>
        some (scaledPoint scale padding v1, scaledPoint scale padding v2)
    | _, _ => none

/-- Pixel (row `y`, column `x`) lies on one of the drawn court lines. -/
abbrev onCourtLine (config : VolleyballCourtConfiguration)
    (padding : ℤ) (scale : ℚ) (x y : ℤ) : Prop :=
  ∃ sg ∈ edgeSegments config padding scale, segCovers sg y x

/-- Pixel of a possibly-failed drawing at row `y`, column `x`. -/
def pixOf (o : Option Image) (y x : ℤ) : Option Color :=
  o.map fun img => img.pix y x

/-- Fold drawing a list of segments, all in the same colour. -/
def drawSegs (segs : List ((ℤ × ℤ) × (ℤ × ℤ))) (c : Color) (img : Image) : Image :=
  segs.foldl (fun im sg => im.lineSeg sg.1 sg.2 c) img

example : pyInt ((900 : ℚ) * (1 / 10)) = 90 := by decide
example : pyInt ((-900 : ℚ) * (1 / 10)) = -90 := by decide
example : (defaultConfig.vertices.get? 2) = some (600, 0) := by decide

/-- On non-negative rationals Python truncation agrees with the floor. -/
theorem pyInt_eq_floor {q : ℚ} (h : 0 ≤ q) : pyInt q = ⌊q⌋ :=
  if_pos h

@[simp]
theorem pyInt_zero : pyInt 0 = 0 := by
  simp [pyInt]

theorem pyInt_nonneg {q : ℚ} (h : 0 ≤ q) : 0 ≤ pyInt q := by
  rw [pyInt_eq_floor h]
  exact Int.floor_nonneg.mpr h

theorem pyInt_le_pyInt {q r : ℚ} (hq : 0 ≤ q) (hqr : q ≤ r) :
    pyInt q ≤ pyInt r := by
  rw [pyInt_eq_floor hq, pyInt_eq_floor (le_trans hq hqr)]
  exact Int.floor_le_floor hqr

/-- A `mapM` over `Option` whose every lookup succeeds returns exactly the
`filterMap` of the lookups. -/
theorem mapM_option_eq_filterMap {α β : Type} (f : α → Option β) :
    ∀ xs : List α, (∀ a ∈ xs, (f a).isSome) → xs.mapM f = some (xs.filterMap f) := by
  intro xs
  induction xs with
  | nil => intro _; rfl
  | cons a as ih =>
    intro h
    obtain ⟨b, hb⟩ := Option.isSome_iff_exists.mp (h a (by simp))
    have hrest := ih fun x hx => h x (by simp [hx])
    rw [List.mapM_cons, hb, hrest]
    simp [List.filterMap_cons, hb]

/-- The edge-drawing fold succeeds when every vertex lookup succeeds, and then
equals the pure fold over the successfully scaled segments. -/
theorem foldlM_edgeStep_eq (V : List (ℚ × ℚ)) (lc : Color) (p : ℤ) (s : ℚ) :
    ∀ (es : List (ℤ × ℤ)) (img : Image),
      (∀ e ∈ es, (vertexAt V e.1).isSome ∧ (vertexAt V e.2).isSome) →
      es.foldlM (edgeStep V lc p s) img =
        some (drawSegs (es.filterMap fun e =>
          match vertexAt V e.1, vertexAt V e.2 with
          | some v1, some v2 =>
              some (scaledPoint s p v1, scaledPoint s p v2)
          | _, _ => none) lc img) := by
  intro es
  induction es with
  | nil => intro img _; rfl
  | cons e es ih =>
    intro img h
    obtain ⟨h1, h2⟩ := h e (by simp)
    obtain ⟨v1, hv1⟩ := Option.isSome_iff_exists.mp h1
    obtain ⟨v2, hv2⟩ := Option.isSome_iff_exists.mp h2
    have hrest := ih (img.lineSeg (scaledPoint s p v1) (scaledPoint s p v2) lc)
      fun e' he' => h e' (by simp [he'])
    rw [List.foldlM_cons]
    have hstep : edgeStep V lc p s img e =
        some (img.lineSeg (scaledPoint s p v1) (scaledPoint s p v2) lc) := by
      simp [edgeStep, hv1, hv2]
    rw [hstep]
    simp only [Option.pure_def, Option.bind_eq_bind, Option.some_bind]
    rw [hrest]
    simp [List.filterMap_cons, hv1, hv2, drawSegs]

@[simp]
theorem rows_lineSeg (img : Image) (p1 p2 : ℤ × ℤ) (c : Color) :
    (img.lineSeg p1 p2 c).rows = img.rows := rfl

@[simp]
theorem cols_lineSeg (img : Image) (p1 p2 : ℤ × ℤ) (c : Color) :
    (img.lineSeg p1 p2 c).cols = img.cols := rfl

@[simp]
theorem rows_fillPoly (img : Image) (pts : List (ℤ × ℤ)) (c : Color) :
    (img.fillPoly pts c).rows = img.rows := by
  cases pts <;> rfl

@[simp]
theorem cols_fillPoly (img : Image) (pts : List (ℤ × ℤ)) (c : Color) :
    (img.fillPoly pts c).cols = img.cols := by
  cases pts <;> rfl

@[simp]
theorem rows_drawSegs (segs : List ((ℤ × ℤ) × (ℤ × ℤ))) (c : Color) (img : Image) :
    (drawSegs segs c img).rows = img.rows := by
  induction segs generalizing img with
  | nil => rfl
  | cons sg segs ih => rw [drawSegs, List.foldl_cons]; exact ih (img.lineSeg sg.1 sg.2 c)

@[simp]
theorem cols_drawSegs (segs : List ((ℤ × ℤ) × (ℤ × ℤ))) (c : Color) (img : Image) :
    (drawSegs segs c img).cols = img.cols := by
  induction segs generalizing img with
  | nil => rfl
  | cons sg segs ih => rw [drawSegs, List.foldl_cons]; exact ih (img.lineSeg sg.1 sg.2 c)

/-- Pixel value after drawing a list of same-coloured segments: the segment
colour on every covered pixel, the underlying image elsewhere. -/
theorem drawSegs_pix (segs : List ((ℤ × ℤ) × (ℤ × ℤ))) (c : Color) (img : Image)
    (y x : ℤ) :
    (drawSegs segs c img).pix y x =
      if ∃ sg ∈ segs, segCovers sg y x then c else img.pix y x := by
  induction segs generalizing img with
  | nil => simp [drawSegs]
  | cons sg segs ih =>
    rw [drawSegs, List.foldl_cons]
    rw [show List.foldl (fun im sg => Image.lineSeg im sg.1 sg.2 c)
        (img.lineSeg sg.1 sg.2 c) segs
      = drawSegs segs c (img.lineSeg sg.1 sg.2 c) from rfl]
    rw [ih]
    by_cases h1 : ∃ s' ∈ segs, segCovers s' y x
    · rw [if_pos h1, if_pos (by rcases h1 with ⟨s', hs', hc⟩; exact ⟨s', by simp [hs'], hc⟩)]
    · by_cases h2 : segCovers sg y x
      · rw [if_neg h1, if_pos ⟨sg, by simp, h2⟩]
        simp [Image.lineSeg, h2]
      · rw [if_neg h1, if_neg (by
          rintro ⟨s', hs', hc⟩
          rcases List.mem_cons.mp hs' with rfl | hmem
          · exact h2 hc
          · exact h1 ⟨s', hmem, hc⟩)]
        simp [Image.lineSeg, h2]

/-- Closed form of a successful `draw_volleyball_court`: the outside-coloured
base of the stated dimensions, the boundary polygon filled inside, and all
configured edges drawn on top in the line colour. -/
theorem draw_eq_of_valid (config : VolleyballCourtConfiguration)
    (ic oc lc : Color) (p : ℤ) (s : ℚ)
    (hrow : 0 ≤ pyInt ((config.width : ℚ) * s) + 2 * p)
    (hcol : 0 ≤ pyInt ((config.length : ℚ) * s) + 2 * p)
    (hb : ∀ i ∈ config.boundary_vertices_indices, (vertexAt config.vertices i).isSome)
    (he : ∀ e ∈ config.edges,
      (vertexAt config.vertices e.1).isSome ∧ (vertexAt config.vertices e.2).isSome) :
    draw_volleyball_court config ic oc lc p s =
      some (drawSegs (edgeSegments config p s) lc
        ((mkBase (pyInt ((config.width : ℚ) * s) + 2 * p)
                 (pyInt ((config.length : ℚ) * s) + 2 * p) oc).fillPoly
          (boundaryPoints config p s) ic)) := by
  unfold draw_volleyball_court
  rw [if_pos ⟨hrow, hcol⟩, mapM_option_eq_filterMap _ _ hb, Option.some_bind,
    foldlM_edgeStep_eq _ _ _ _ _ _ he]
  rfl

/-- Every boundary-vertex lookup succeeds when the index list is the source
default `[1, 2, 10, 9]` (the vertex list always has the ten entries). -/
theorem boundary_lookups_ok (c : VolleyballCourtConfiguration)
    (h : c.boundary_vertices_indices = [1, 2, 10, 9]) :
    ∀ i ∈ c.boundary_vertices_indices, (vertexAt c.vertices i).isSome := by
  rw [h]
  intro i hi
  fin_cases hi <;> rfl

/-- Every edge-vertex lookup succeeds when the edge list is the source
default. -/
theorem edge_lookups_ok (c : VolleyballCourtConfiguration)
    (h : c.edges = [(1, 2), (2, 10), (10, 9), (9, 1), (5, 6), (3, 4), (7, 8)]) :
    ∀ e ∈ c.edges,
      (vertexAt c.vertices e.1).isSome ∧ (vertexAt c.vertices e.2).isSome := by
  rw [h]
  intro e he
  fin_cases he <;> exact ⟨rfl, rfl⟩

/-- Model of `cv2.circle` with `thickness = -1`: fill the closed disk. -/
def Image.circleDisk (img : Image) (center : ℤ × ℤ) (radius : ℤ) (c : Color) :
    Image :=
  { img with pix := fun y x =>
      if (x - center.1) ^ 2 + (y - center.2) ^ 2 ≤ radius ^ 2 then c
      else img.pix y x }

/-- Model of `cv2.circle` with positive thickness: paint the band of the given
thickness around the circle of the given radius. -/
def Image.circleRing (img : Image) (center : ℤ × ℤ) (radius thickness : ℤ)
    (c : Color) : Image :=
  { img with pix := fun y x =>
      if (radius - thickness) ^ 2 ≤ (x - center.1) ^ 2 + (y - center.2) ^ 2 ∧
          (x - center.1) ^ 2 + (y - center.2) ^ 2 ≤ (radius + thickness) ^ 2 then c
      else img.pix y x }

/-- Modelled from the spec: `draw_points_on_court` (spec section 4.3) has no
active implementation under `src/` — the repository only contains the
commented-out soccer analog `draw_points_on_pitch`.  Per the spec: when no
court image is supplied, render one with the court drawer at the given padding
and scale, the other court-drawing options at their defaults; then for each
point, in input order, draw a filled disk of the face colour at its scaled,
padded pixel coordinate and a ring outline of the edge colour on top. -/
def draw_points_on_court (config : VolleyballCourtConfiguration)
    (xy : List (ℚ × ℚ)) (face_color edge_color : Color)
    (radius thickness : ℤ) (padding : ℤ) (scale : ℚ)
    (court : Option Image) : Option Image :=
  let paint : Image → Image := fun img =>
    xy.foldl (fun im pt =>
      (im.circleDisk (scaledPoint scale padding pt) radius face_color).circleRing
        (scaledPoint scale padding pt) radius thickness edge_color) img
  match court with
  | some img => some (paint img)
  | none =>
      (draw_volleyball_court config insideDefault outsideDefault lineWhite
        padding scale).map paint

/-- Vertex layout exactly as claim C3 words it: left edge top then bottom, left
attack line top then bottom, net top then bottom, right attack line top then
bottom, right edge top then bottom ("top" being the y = width side, as in the
source comments). -/
def claimedVerticesC3 (w l a : ℚ) : List (ℚ × ℚ) :=
  [ (0, w), (0, 0),
    (l / 2 - a, w), (l / 2 - a, 0),
    (l / 2, w), (l / 2, 0),
    (l / 2 + a, w), (l / 2 + a, 0),
    (l, w), (l, 0) ]

/-- Vertex layout as the code actually orders it: identical to the claim's
reading except that each attack-line pair is bottom (y = 0) first and top
(y = width) second. -/
def amendedVerticesC3 (w l a : ℚ) : List (ℚ × ℚ) :=
  [ (0, w), (0, 0),
    (l / 2 - a, 0), (l / 2 - a, w),
    (l / 2, w), (l / 2, 0),
    (l / 2 + a, 0), (l / 2 + a, w),
    (l, w), (l, 0) ]

/-- C1 counterexample: a configuration with a negative width (a legal value of
the dataclass field) at non-negative padding 20 and scale 1/10 yields a
negative first image dimension, so `np.ones` raises and no buffer of the
claimed shape is returned. -/
theorem C1_counterexample :
    draw_volleyball_court { width := -900 } insideDefault outsideDefault
      lineWhite 20 (1 / 10) = none := by
  rfl

/-- C1 (amended): for every configuration with non-negative width and length
whose edge and boundary index lists are the court defaults, and every
non-negative padding and scale, `draw_volleyball_court` returns a buffer of
shape `(floor(width*scale) + 2*padding, floor(length*scale) + 2*padding, 3)`
(the three channels being the fields of `Color`). -/
theorem C1_shape (config : VolleyballCourtConfiguration)
    (ic oc lc : Color) (p : ℤ) (s : ℚ)
    (hw : 0 ≤ config.width) (hl : 0 ≤ config.length) (hp : 0 ≤ p) (hs : 0 ≤ s)
    (hb : config.boundary_vertices_indices = [1, 2, 10, 9])
    (he : config.edges = [(1, 2), (2, 10), (10, 9), (9, 1), (5, 6), (3, 4), (7, 8)]) :
    ∃ img, draw_volleyball_court config ic oc lc p s = some img ∧
      img.rows = ⌊(config.width : ℚ) * s⌋ + 2 * p ∧
      img.cols = ⌊(config.length : ℚ) * s⌋ + 2 * p := by
  have hwq : (0 : ℚ) ≤ (config.width : ℚ) * s :=
    mul_nonneg (by exact_mod_cast hw) hs
  have hlq : (0 : ℚ) ≤ (config.length : ℚ) * s :=
    mul_nonneg (by exact_mod_cast hl) hs
  have hr : 0 ≤ pyInt ((config.width : ℚ) * s) + 2 * p := by
    have := pyInt_nonneg hwq
    omega
  have hc : 0 ≤ pyInt ((config.length : ℚ) * s) + 2 * p := by
    have := pyInt_nonneg hlq
    omega
  rw [draw_eq_of_valid config ic oc lc p s hr hc
    (boundary_lookups_ok config hb) (edge_lookups_ok config he)]
  refine ⟨_, rfl, ?_, ?_⟩
  · simp [mkBase, pyInt_eq_floor hwq]
  · simp [mkBase, pyInt_eq_floor hlq]

/-- C1 witness: the default configuration at padding 20, scale 1/10. -/
theorem C1_shape_witness :
    ∃ img, draw_volleyball_court defaultConfig insideDefault outsideDefault
        lineWhite 20 (1 / 10) = some img ∧
      img.rows = ⌊(defaultConfig.width : ℚ) * (1 / 10)⌋ + 2 * 20 ∧
      img.cols = ⌊(defaultConfig.length : ℚ) * (1 / 10)⌋ + 2 * 20 :=
  C1_shape defaultConfig insideDefault outsideDefault lineWhite 20 (1 / 10)
    (by decide) (by decide) (by decide) (by decide) rfl rfl

/-- C3 counterexample: at the default dimensions the third vertex is the left
attack line's bottom point `(600, 0)`, not its top point, so the claimed
top-then-bottom ordering of the attack-line pairs is wrong. -/
theorem C3_counterexample :
    defaultConfig.vertices ≠ claimedVerticesC3 900 1800 300 := by
  decide

/-- C3 (amended): for every width, length and attack_line_distance the
`vertices` property deterministically yields exactly these ten points, in
order: left edge top then bottom, left attack line bottom then top, net top
then bottom at x = length/2, right attack line bottom then top, right edge top
then bottom — attack lines offset symmetrically from the net, the four corners
at (0,0), (0,width), (length,0), (length,width). -/
theorem C3_vertices_order (c : VolleyballCourtConfiguration) :
    c.vertices =
      amendedVerticesC3 (c.width : ℚ) (c.length : ℚ) (c.attack_line_distance : ℚ) ∧
    c.vertices.length = 10 :=
  ⟨rfl, rfl⟩

/-- C5: drawing is deterministic — equal configurations and equal colour,
padding and scale options produce equal images.  (The embedding is a pure
function, which is exactly the claim's absence of side effects: the output is
the only effect.) -/
theorem C5_deterministic (c1 c2 : VolleyballCourtConfiguration)
    (i1 i2 o1 o2 l1 l2 : Color) (p1 p2 : ℤ) (s1 s2 : ℚ)
    (hc : c1 = c2) (hi : i1 = i2) (ho : o1 = o2) (hl : l1 = l2)
    (hp : p1 = p2) (hs : s1 = s2) :
    draw_volleyball_court c1 i1 o1 l1 p1 s1 =
      draw_volleyball_court c2 i2 o2 l2 p2 s2 := by
  subst hc hi ho hl hp hs
  rfl

/-- C5 witness: two identical calls at the default options. -/
theorem C5_deterministic_witness :
    draw_volleyball_court defaultConfig insideDefault outsideDefault lineWhite
        20 (1 / 10) =
      draw_volleyball_court defaultConfig insideDefault outsideDefault lineWhite
        20 (1 / 10) :=
  C5_deterministic defaultConfig defaultConfig insideDefault insideDefault
    outsideDefault outsideDefault lineWhite lineWhite 20 20 (1 / 10) (1 / 10)
    rfl rfl rfl rfl rfl rfl

/-- C6: in the default configuration every index appearing in `edges` and in
`boundary_vertices_indices` lies between 1 and 10, and `vertices` always has
length exactly 10. -/
theorem C6_valid_indices :
    (∀ e ∈ defaultConfig.edges, 1 ≤ e.1 ∧ e.1 ≤ 10 ∧ 1 ≤ e.2 ∧ e.2 ≤ 10) ∧
    (∀ i ∈ defaultConfig.boundary_vertices_indices, 1 ≤ i ∧ i ≤ 10) ∧
    (∀ c : VolleyballCourtConfiguration, c.vertices.length = 10) :=
  ⟨by decide, by decide, fun _ => rfl⟩

/-- C7 counterexample: a negative length at padding 20 and scale 1/10 gives a
negative second image dimension, so `np.ones` raises instead of degenerating
gracefully. -/
theorem C7_counterexample :
    draw_volleyball_court { length := -1800 } insideDefault outsideDefault
      lineWhite 20 (1 / 10) = none := by
  rfl

/-- C7 (amended): with non-negative width and length (zero included — the
degenerate court), the default index lists, and non-negative padding and
scale, `draw_volleyball_court` never fails.  A negative dimension, by
contrast, can make the computed image dimension negative and raise. -/
theorem C7_no_error_for_nonneg (config : VolleyballCourtConfiguration)
    (ic oc lc : Color) (p : ℤ) (s : ℚ)
    (hw : 0 ≤ config.width) (hl : 0 ≤ config.length) (hp : 0 ≤ p) (hs : 0 ≤ s)
    (hb : config.boundary_vertices_indices = [1, 2, 10, 9])
    (he : config.edges = [(1, 2), (2, 10), (10, 9), (9, 1), (5, 6), (3, 4), (7, 8)]) :
    (draw_volleyball_court config ic oc lc p s).isSome := by
  obtain ⟨img, himg, -, -⟩ := C1_shape config ic oc lc p s hw hl hp hs hb he
  rw [himg]
  rfl

/-- C7 witness: the zero-width, zero-length degenerate configuration draws
without error. -/
theorem C7_no_error_witness :
    (draw_volleyball_court { width := 0, length := 0 } insideDefault
      outsideDefault lineWhite 20 (1 / 10)).isSome :=
  C7_no_error_for_nonneg { width := 0, length := 0 } insideDefault
    outsideDefault lineWhite 20 (1 / 10) (by decide) (by decide) (by decide)
    (by decide) rfl rfl

/-- C8: two configurations that agree on everything except `net_height`,
`labels` and `colors` render identically — those fields are never read by the
drawing code. -/
theorem C8_cosmetic_fields_unused (c1 c2 : VolleyballCourtConfiguration)
    (hw : c1.width = c2.width) (hl : c1.length = c2.length)
    (ha : c1.attack_line_distance = c2.attack_line_distance)
    (hc : c1.centre_line = c2.centre_line)
    (he : c1.edges = c2.edges)
    (hb : c1.boundary_vertices_indices = c2.boundary_vertices_indices) :
    ∀ (ic oc lc : Color) (p : ℤ) (s : ℚ),
      draw_volleyball_court c1 ic oc lc p s =
        draw_volleyball_court c2 ic oc lc p s := by
  cases c1
  cases c2
  dsimp only at hw hl ha hc he hb
  subst hw hl ha hc he hb
  intro ic oc lc p s
  rfl

/-- Configuration differing from the defaults only in the cosmetic fields. -/
def cfgCosmetic : VolleyballCourtConfiguration :=
  { net_height := 999, labels := [], colors := [] }

/-- C8 witness: changing only `net_height`, `labels` and `colors` leaves the
rendered image unchanged. -/
theorem C8_cosmetic_fields_witness :
    draw_volleyball_court defaultConfig insideDefault outsideDefault lineWhite
        20 (1 / 10) =
      draw_volleyball_court cfgCosmetic insideDefault outsideDefault lineWhite
        20 (1 / 10) :=
  C8_cosmetic_fields_unused defaultConfig cfgCosmetic rfl rfl rfl rfl rfl rfl
    insideDefault outsideDefault lineWhite 20 (1 / 10)

/-- C9: with an empty point sequence and no pre-rendered court image,
`draw_points_on_court` returns exactly the image the court drawer returns for
the same padding and scale (other court options at their defaults).
Spec-modelled: the point drawer itself is absent from the active source. -/
theorem C9_empty_points_draws_court (config : VolleyballCourtConfiguration)
    (fc ec : Color) (r t p : ℤ) (s : ℚ) :
    draw_points_on_court config [] fc ec r t p s none =
      draw_volleyball_court config insideDefault outsideDefault lineWhite p s := by
  cases hD : draw_volleyball_court config insideDefault outsideDefault lineWhite p s <;>
    simp [draw_points_on_court, hD]

/-- C2 counterexample: with the default configuration (width 900), scale 1/10
and padding 20 the image has `floor(900 * 0.1) + 40 = 130` rows, not the 110
rows the claim computes (the claim's `70 + 40` miscomputes `floor(900*0.1)` as
70). -/
theorem C2_counterexample :
    (draw_volleyball_court defaultConfig insideDefault outsideDefault lineWhite
      20 (1 / 10)).map Image.rows ≠ some 110 := by
  decide

set_option maxRecDepth 4000 in
/-- C2 (amended): with the default configuration, scale 0.1 and padding 20 the
image has size (130, 220, 3), and the net is the vertical line at pixel
x = 110: scanning column 110 over all 130 rows, a pixel is line-coloured
exactly for y between 20 and 110. -/
theorem C2_concrete_scenario :
    (draw_volleyball_court defaultConfig insideDefault outsideDefault lineWhite
      20 (1 / 10)).map Image.rows = some 130 ∧
    (draw_volleyball_court defaultConfig insideDefault outsideDefault lineWhite
      20 (1 / 10)).map Image.cols = some 220 ∧
    ∀ y : ℕ, y < 130 →
      (pixOf (draw_volleyball_court defaultConfig insideDefault outsideDefault
          lineWhite 20 (1 / 10)) (y : ℤ) 110 = some lineWhite ↔
        20 ≤ (y : ℤ) ∧ (y : ℤ) ≤ 110) := by
  refine ⟨by decide, by decide, by decide⟩

/-- Pixel value of the rectangle fill, unfolded on a non-empty point list. -/
theorem fillPoly_pix_cons (img : Image) (q : ℤ × ℤ) (qs : List (ℤ × ℤ))
    (c : Color) (y x : ℤ) :
    (img.fillPoly (q :: qs) c).pix y x =
      if qs.foldl (fun m pt => min m pt.1) q.1 ≤ x ∧
          x ≤ qs.foldl (fun m pt => max m pt.1) q.1 ∧
          qs.foldl (fun m pt => min m pt.2) q.2 ≤ y ∧
          y ≤ qs.foldl (fun m pt => max m pt.2) q.2 then c
      else img.pix y x := rfl


/-- Closed form of the scaled edge segments when the edge list is the source
default: the four boundary sides, the net, and the two attack lines. -/
theorem edgeSegments_default (c : VolleyballCourtConfiguration) (p : ℤ) (s : ℚ)
    (he : c.edges = [(1, 2), (2, 10), (10, 9), (9, 1), (5, 6), (3, 4), (7, 8)]) :
    edgeSegments c p s =
      [ ((p, pyInt ((c.width : ℚ) * s) + p), (p, p)),
        ((p, p), (pyInt ((c.length : ℚ) * s) + p, p)),
        ((pyInt ((c.length : ℚ) * s) + p, p),
          (pyInt ((c.length : ℚ) * s) + p, pyInt ((c.width : ℚ) * s) + p)),
        ((pyInt ((c.length : ℚ) * s) + p, pyInt ((c.width : ℚ) * s) + p),
          (p, pyInt ((c.width : ℚ) * s) + p)),
        ((pyInt (((c.length : ℚ) / 2) * s) + p, pyInt ((c.width : ℚ) * s) + p),
          (pyInt (((c.length : ℚ) / 2) * s) + p, p)),
        ((pyInt (((c.length : ℚ) / 2 - (c.attack_line_distance : ℚ)) * s) + p, p),
          (pyInt (((c.length : ℚ) / 2 - (c.attack_line_distance : ℚ)) * s) + p,
            pyInt ((c.width : ℚ) * s) + p)),
        ((pyInt (((c.length : ℚ) / 2 + (c.attack_line_distance : ℚ)) * s) + p, p),
          (pyInt (((c.length : ℚ) / 2 + (c.attack_line_distance : ℚ)) * s) + p,
            pyInt ((c.width : ℚ) * s) + p)) ] := by
  have hv1 : vertexAt c.vertices 1 = some (0, (c.width : ℚ)) := rfl
  have hv2 : vertexAt c.vertices 2 = some (0, 0) := rfl
  have hv3 : vertexAt c.vertices 3 =
      some ((c.length : ℚ) / 2 - (c.attack_line_distance : ℚ), 0) := rfl
  have hv4 : vertexAt c.vertices 4 =
      some ((c.length : ℚ) / 2 - (c.attack_line_distance : ℚ), (c.width : ℚ)) := rfl
  have hv5 : vertexAt c.vertices 5 = some ((c.length : ℚ) / 2, (c.width : ℚ)) := rfl
  have hv6 : vertexAt c.vertices 6 = some ((c.length : ℚ) / 2, 0) := rfl
  have hv7 : vertexAt c.vertices 7 =
      some ((c.length : ℚ) / 2 + (c.attack_line_distance : ℚ), 0) := rfl
  have hv8 : vertexAt c.vertices 8 =
      some ((c.length : ℚ) / 2 + (c.attack_line_distance : ℚ), (c.width : ℚ)) := rfl
  have hv9 : vertexAt c.vertices 9 = some ((c.length : ℚ), (c.width : ℚ)) := rfl
  have hv10 : vertexAt c.vertices 10 = some ((c.length : ℚ), 0) := rfl
  simp [edgeSegments, he, hv1, hv2, hv3, hv4, hv5, hv6, hv7, hv8, hv9, hv10,
    scaledPoint, List.filterMap_cons]

/-- Closed form of the scaled boundary polygon when the boundary index list is
the source default `[1, 2, 10, 9]`: the court rectangle's four corners. -/
theorem boundaryPoints_default (c : VolleyballCourtConfiguration) (p : ℤ) (s : ℚ)
    (hb : c.boundary_vertices_indices = [1, 2, 10, 9]) :
    boundaryPoints c p s =
      [ (p, pyInt ((c.width : ℚ) * s) + p), (p, p),
        (pyInt ((c.length : ℚ) * s) + p, p),
        (pyInt ((c.length : ℚ) * s) + p, pyInt ((c.width : ℚ) * s) + p) ] := by
  have hv1 : vertexAt c.vertices 1 = some (0, (c.width : ℚ)) := rfl
  have hv2 : vertexAt c.vertices 2 = some (0, 0) := rfl
  have hv9 : vertexAt c.vertices 9 = some ((c.length : ℚ), (c.width : ℚ)) := rfl
  have hv10 : vertexAt c.vertices 10 = some ((c.length : ℚ), 0) := rfl
  simp [boundaryPoints, hb, hv1, hv2, hv9, hv10, scaledPoint, List.filterMap_cons]

/-- Ordering of the scaled x-offsets of the court landmarks: with non-negative
width and attack distance, attack lines no farther than the net, and
non-negative scale, the scaled left attack line, net, right attack line and
right edge appear in that order at non-negative offsets. -/
theorem scaled_offsets_ordered (c : VolleyballCourtConfiguration) (s : ℚ)
    (hw : 0 ≤ c.width) (ha : 0 ≤ c.attack_line_distance)
    (hal : (c.attack_line_distance : ℚ) ≤ (c.length : ℚ) / 2) (hs : 0 ≤ s) :
    0 ≤ pyInt ((c.width : ℚ) * s) ∧
    0 ≤ pyInt (((c.length : ℚ) / 2 - (c.attack_line_distance : ℚ)) * s) ∧
    pyInt (((c.length : ℚ) / 2 - (c.attack_line_distance : ℚ)) * s) ≤
      pyInt (((c.length : ℚ) / 2) * s) ∧
    pyInt (((c.length : ℚ) / 2) * s) ≤
      pyInt (((c.length : ℚ) / 2 + (c.attack_line_distance : ℚ)) * s) ∧
    pyInt (((c.length : ℚ) / 2 + (c.attack_line_distance : ℚ)) * s) ≤
      pyInt ((c.length : ℚ) * s) ∧
    0 ≤ pyInt ((c.length : ℚ) * s) := by
  have haq : (0 : ℚ) ≤ (c.attack_line_distance : ℚ) := by exact_mod_cast ha
  have hwq0 : (0 : ℚ) ≤ (c.width : ℚ) := by exact_mod_cast hw
  have hlq2 : (0 : ℚ) ≤ (c.length : ℚ) / 2 := le_trans haq hal
  have hAq : (0 : ℚ) ≤ ((c.length : ℚ) / 2 - (c.attack_line_distance : ℚ)) * s :=
    mul_nonneg (by linarith) hs
  refine ⟨pyInt_nonneg (mul_nonneg hwq0 hs), pyInt_nonneg hAq,
    pyInt_le_pyInt hAq (mul_le_mul_of_nonneg_right (by linarith) hs),
    pyInt_le_pyInt (mul_nonneg hlq2 hs) (mul_le_mul_of_nonneg_right (by linarith) hs),
    pyInt_le_pyInt (mul_nonneg (by linarith) hs)
      (mul_le_mul_of_nonneg_right (by linarith) hs),
    pyInt_nonneg (mul_nonneg (by linarith) hs)⟩

set_option maxHeartbeats 1000000 in
/-- C4: in a successfully drawn court with the default edge layout,
non-negative dimensions, padding and scale, and attack lines no farther than
the net, every pixel strictly outside the scaled, padded boundary rectangle
shows the outside colour; every pixel strictly inside it that no court line
covers shows the inside colour; and every pixel on a court line shows the line
colour (the lines are drawn after the fill, so the fill never occludes
them).  Line thickness is the function's default 1, the value the pixel model
covers. -/
theorem C4_pixel_colors (c : VolleyballCourtConfiguration)
    (ic oc lc : Color) (p : ℤ) (s : ℚ)
    (hb : c.boundary_vertices_indices = [1, 2, 10, 9])
    (he : c.edges = [(1, 2), (2, 10), (10, 9), (9, 1), (5, 6), (3, 4), (7, 8)])
    (hw : 0 ≤ c.width) (ha : 0 ≤ c.attack_line_distance)
    (hal : (c.attack_line_distance : ℚ) ≤ (c.length : ℚ) / 2)
    (hp : 0 ≤ p) (hs : 0 ≤ s) :
    ∀ x y : ℤ,
      ((x < p ∨ p + ⌊(c.length : ℚ) * s⌋ < x ∨ y < p ∨ p + ⌊(c.width : ℚ) * s⌋ < y) →
        pixOf (draw_volleyball_court c ic oc lc p s) y x = some oc) ∧
      ((p < x ∧ x < p + ⌊(c.length : ℚ) * s⌋ ∧ p < y ∧ y < p + ⌊(c.width : ℚ) * s⌋ ∧
          ¬ onCourtLine c p s x y) →
        pixOf (draw_volleyball_court c ic oc lc p s) y x = some ic) ∧
      (onCourtLine c p s x y →
        pixOf (draw_volleyball_court c ic oc lc p s) y x = some lc) := by
  have hws : (0 : ℚ) ≤ (c.width : ℚ) * s :=
    mul_nonneg (by exact_mod_cast hw) hs
  have hls : (0 : ℚ) ≤ (c.length : ℚ) * s := by
    have haq : (0 : ℚ) ≤ (c.attack_line_distance : ℚ) := by exact_mod_cast ha
    exact mul_nonneg (by linarith) hs
  obtain ⟨h0W, h0A, hAN, hNB, hBL, h0L⟩ := scaled_offsets_ordered c s hw ha hal hs
  have hr : 0 ≤ pyInt ((c.width : ℚ) * s) + 2 * p := by omega
  have hc2 : 0 ≤ pyInt ((c.length : ℚ) * s) + 2 * p := by omega
  have hseg := edgeSegments_default c p s he
  have hbp := boundaryPoints_default c p s hb
  intro x y
  have hbound : (∃ sg ∈ edgeSegments c p s, segCovers sg y x) →
      p ≤ x ∧ x ≤ pyInt ((c.length : ℚ) * s) + p ∧
      p ≤ y ∧ y ≤ pyInt ((c.width : ℚ) * s) + p := by
    rw [hseg]
    rintro ⟨sg, hsg, hcov⟩
    simp only [List.mem_cons, List.not_mem_nil, or_false] at hsg
    rcases hsg with rfl | rfl | rfl | rfl | rfl | rfl | rfl <;>
      (simp only [segCovers] at hcov; omega)
  rw [show (⌊(c.width : ℚ) * s⌋ : ℤ) = pyInt ((c.width : ℚ) * s) from
      (pyInt_eq_floor hws).symm,
    show (⌊(c.length : ℚ) * s⌋ : ℤ) = pyInt ((c.length : ℚ) * s) from
      (pyInt_eq_floor hls).symm]
  simp only [onCourtLine]
  rw [draw_eq_of_valid c ic oc lc p s hr hc2
    (boundary_lookups_ok c hb) (edge_lookups_ok c he)]
  simp only [pixOf, Option.map_some']
  rw [drawSegs_pix, hbp, fillPoly_pix_cons]
  simp only [List.foldl_cons, List.foldl_nil, mkBase]
  refine ⟨fun hout => ?_, fun hin => ?_, fun hln => ?_⟩
  · have hnl : ¬∃ sg ∈ edgeSegments c p s, segCovers sg y x := by
      intro hln
      have hbb := hbound hln
      omega
    rw [if_neg hnl]
    split_ifs with h2
    · exfalso; omega
    · rfl
  · obtain ⟨hx1, hx2, hy1, hy2, hnl⟩ := hin
    rw [if_neg hnl]
    split_ifs with h2
    · rfl
    · exfalso; omega
  · rw [if_pos hln]

/-- C4 witness: at the default configuration and options, a corner pixel is
outside-coloured, a pixel on the net is line-coloured, and an interior pixel
off every line is inside-coloured. -/
theorem C4_pixel_colors_witness :
    pixOf (draw_volleyball_court defaultConfig insideDefault outsideDefault
      lineWhite 20 (1 / 10)) 0 0 = some outsideDefault ∧
    pixOf (draw_volleyball_court defaultConfig insideDefault outsideDefault
      lineWhite 20 (1 / 10)) 60 110 = some lineWhite ∧
    pixOf (draw_volleyball_court defaultConfig insideDefault outsideDefault
      lineWhite 20 (1 / 10)) 60 100 = some insideDefault := by
  have h := C4_pixel_colors defaultConfig insideDefault outsideDefault lineWhite
    20 (1 / 10) rfl rfl (by decide) (by decide) (by decide) (by decide) (by decide)
  exact ⟨(h 0 0).1 (by decide), (h 110 60).2.2 (by decide),
    (h 100 60).2.1 ⟨by decide, by decide, by decide, by decide, by decide⟩⟩

/-- Pixel coordinate (cv2 (x, y) order: column then row) within an image of the
given dimensions. -/
abbrev inBoundsPt (rows cols : ℤ) (pt : ℤ × ℤ) : Prop :=
  0 ≤ pt.1 ∧ pt.1 < cols ∧ 0 ≤ pt.2 ∧ pt.2 < rows

/-- C10 counterexample: at padding 0 (a non-negative padding) and scale 1/10,
the default configuration's boundary polygon contains the point (180, 90)
while the image has only 180 columns (indices 0..179), so not every polygon
point lies within the image bounds. -/
theorem C10_counterexample :
    (draw_volleyball_court defaultConfig insideDefault outsideDefault lineWhite
      0 (1 / 10)).map Image.cols = some 180 ∧
    ∃ pt ∈ boundaryPoints defaultConfig 0 (1 / 10), ¬ inBoundsPt 90 180 pt :=
  ⟨by decide, ⟨(180, 90), by decide, by decide⟩⟩

/-- C10 (amended): with non-negative dimensions, attack lines no farther than
the net, positive padding and non-negative scale, the polygon handed to the
fill primitive is the axis-aligned rectangle traced in order through
(padding, padding + floor(width*scale)), (padding, padding),
(padding + floor(length*scale), padding),
(padding + floor(length*scale), padding + floor(width*scale)), and every
polygon point and every scaled edge endpoint lies within the image bounds.
(At padding 0 the far corners fall one pixel outside the image, so the claim's
"every non-negative padding" had to become "every positive padding".) -/
theorem C10_boundary_polygon (c : VolleyballCourtConfiguration) (p : ℤ) (s : ℚ)
    (hb : c.boundary_vertices_indices = [1, 2, 10, 9])
    (he : c.edges = [(1, 2), (2, 10), (10, 9), (9, 1), (5, 6), (3, 4), (7, 8)])
    (hw : 0 ≤ c.width) (ha : 0 ≤ c.attack_line_distance)
    (hal : (c.attack_line_distance : ℚ) ≤ (c.length : ℚ) / 2)
    (hp : 1 ≤ p) (hs : 0 ≤ s) :
    boundaryPoints c p s =
      [ (p, ⌊(c.width : ℚ) * s⌋ + p), (p, p), (⌊(c.length : ℚ) * s⌋ + p, p),
        (⌊(c.length : ℚ) * s⌋ + p, ⌊(c.width : ℚ) * s⌋ + p) ] ∧
    (∀ pt ∈ boundaryPoints c p s,
      inBoundsPt (⌊(c.width : ℚ) * s⌋ + 2 * p) (⌊(c.length : ℚ) * s⌋ + 2 * p) pt) ∧
    (∀ sg ∈ edgeSegments c p s,
      inBoundsPt (⌊(c.width : ℚ) * s⌋ + 2 * p) (⌊(c.length : ℚ) * s⌋ + 2 * p) sg.1 ∧
      inBoundsPt (⌊(c.width : ℚ) * s⌋ + 2 * p) (⌊(c.length : ℚ) * s⌋ + 2 * p) sg.2) := by
  have hws : (0 : ℚ) ≤ (c.width : ℚ) * s :=
    mul_nonneg (by exact_mod_cast hw) hs
  have hls : (0 : ℚ) ≤ (c.length : ℚ) * s := by
    have haq : (0 : ℚ) ≤ (c.attack_line_distance : ℚ) := by exact_mod_cast ha
    exact mul_nonneg (by linarith) hs
  obtain ⟨h0W, h0A, hAN, hNB, hBL, h0L⟩ := scaled_offsets_ordered c s hw ha hal hs
  rw [show (⌊(c.width : ℚ) * s⌋ : ℤ) = pyInt ((c.width : ℚ) * s) from
      (pyInt_eq_floor hws).symm,
    show (⌊(c.length : ℚ) * s⌋ : ℤ) = pyInt ((c.length : ℚ) * s) from
      (pyInt_eq_floor hls).symm]
  refine ⟨?_, ?_, ?_⟩
  · rw [boundaryPoints_default c p s hb]
  · rw [boundaryPoints_default c p s hb]
    intro pt hpt
    simp only [List.mem_cons, List.not_mem_nil, or_false] at hpt
    rcases hpt with rfl | rfl | rfl | rfl <;> (simp only [inBoundsPt]; omega)
  · rw [edgeSegments_default c p s he]
    intro sg hsg
    simp only [List.mem_cons, List.not_mem_nil, or_false] at hsg
    rcases hsg with rfl | rfl | rfl | rfl | rfl | rfl | rfl <;>
      (simp only [inBoundsPt]; omega)

/-- C10 witness: the default configuration at padding 20, scale 1/10. -/
theorem C10_boundary_polygon_witness :
    boundaryPoints defaultConfig 20 (1 / 10) =
      [ (20, ⌊(defaultConfig.width : ℚ) * (1 / 10)⌋ + 20), (20, 20),
        (⌊(defaultConfig.length : ℚ) * (1 / 10)⌋ + 20, 20),
        (⌊(defaultConfig.length : ℚ) * (1 / 10)⌋ + 20,
          ⌊(defaultConfig.width : ℚ) * (1 / 10)⌋ + 20) ] ∧
    (∀ pt ∈ boundaryPoints defaultConfig 20 (1 / 10),
      inBoundsPt (⌊(defaultConfig.width : ℚ) * (1 / 10)⌋ + 2 * 20)
        (⌊(defaultConfig.length : ℚ) * (1 / 10)⌋ + 2 * 20) pt) ∧
    (∀ sg ∈ edgeSegments defaultConfig 20 (1 / 10),
      inBoundsPt (⌊(defaultConfig.width : ℚ) * (1 / 10)⌋ + 2 * 20)
        (⌊(defaultConfig.length : ℚ) * (1 / 10)⌋ + 2 * 20) sg.1 ∧
      inBoundsPt (⌊(defaultConfig.width : ℚ) * (1 / 10)⌋ + 2 * 20)
        (⌊(defaultConfig.length : ℚ) * (1 / 10)⌋ + 2 * 20) sg.2) :=
  C10_boundary_polygon defaultConfig 20 (1 / 10) rfl rfl (by decide) (by decide)
    (by decide) (by decide) (by decide)

end
